import Mathlib

/-!
Verification of the drag-and-drop project board (src: the TypeScript
application bundled with its webpack config).  The application code is
shallowly embedded below: JS numbers are modelled as integers plus NaN
(the program only ever produces integral people counts and NaN from
failed coercions), JS object identity is modelled with an explicit heap
of `Project` records addressed by `Ref`, and DOM/listener side effects
are modelled as explicit event lists.
-/

namespace DragDrop

/-- Project status enum from the source (`enum ProjectStatus { Active, Finished }`). -/
inductive ProjectStatus
  | Active
  | Finished
deriving DecidableEq, Repr

/-- A JS number as used by this program: an integer or NaN (a failed `+string`
coercion).  Fractional values never arise in the claims under study. -/
inductive JsNum
  | num (n : Int)
  | nan
deriving DecidableEq, Repr

/-- JS `<` on numbers: false whenever either side is NaN. -/
def JsNum.jsLt : JsNum → JsNum → Bool
  | JsNum.num a, JsNum.num b => decide (a < b)
  | _, _ => false

/-- JS `>` on numbers: false whenever either side is NaN. -/
def JsNum.jsGt (a b : JsNum) : Bool := JsNum.jsLt b a

/-- JS `===` on numbers: false whenever either side is NaN (NaN !== NaN). -/
def JsNum.jsEq : JsNum → JsNum → Bool
  | JsNum.num a, JsNum.num b => a == b
  | _, _ => false

/-- The decimal digit character for `d % 10`. -/
def digitChar (d : Nat) : Char := Char.ofNat (48 + d % 10)

/-- Decimal digits, fuel-based so that the kernel can evaluate it
(`n / 10` strictly decreases, so `n + 1` steps of fuel always suffice). -/
def natDigitsAux : Nat → Nat → List Char
  | 0, _ => []
  | fuel + 1, n =>
    if n < 10 then [digitChar n]
    else natDigitsAux fuel (n / 10) ++ [digitChar n]

/-- Decimal digits of a natural number, most significant first
(the JS `Number.prototype.toString` representation for naturals). -/
def natDigits (n : Nat) : List Char := natDigitsAux (n + 1) n

/-- JS `Number.prototype.toString` for the numbers modelled here. -/
def jsNumToString : JsNum → String
  | JsNum.num (Int.ofNat m) => String.mk (natDigits m)
  | JsNum.num (Int.negSucc m) => String.mk ('-' :: natDigits (m + 1))
  | JsNum.nan => "NaN"

/-- Whitespace characters stripped by JS `String.prototype.trim`
(the subset that can occur in this program's inputs). -/
def isJsWhitespace (c : Char) : Bool :=
  c == ' ' || c == '\t' || c == '\n' || c == '\r'

/-- JS `String.prototype.trim`: drop whitespace from both ends. -/
def jsTrim (s : String) : String :=
  String.mk (((s.data.dropWhile isJsWhitespace).reverse.dropWhile isJsWhitespace).reverse)

/-- A `string | number` value as stored in a `Validatable`. -/
inductive JsValue
  | str (s : String)
  | num (n : JsNum)
deriving DecidableEq, Repr

/-- JS `value.toString()` for a `string | number` value. -/
def jsValueToString : JsValue → String
  | JsValue.str s => s
  | JsValue.num n => jsNumToString n

/-- The `Validatable` interface: a value plus optional constraints
(`none` models an absent/undefined field). -/
structure Validatable where
  value : JsValue
  required : Option Bool := none
  minLength : Option Int := none
  maxLength : Option Int := none
  min : Option JsNum := none
  max : Option JsNum := none
deriving DecidableEq, Repr

/-- The `validate` function, clause for clause from the source: `required`
checks `value.toString().trim().length !== 0`; `minLength`/`maxLength` apply
only when the value is a string (`typeof value === "string"`), `min`/`max`
only when it is a number; each present applicable constraint is ANDed in. -/
def validate (validateableInput : Validatable) : Bool :=
  let isValid0 : Bool := true
  let isValid1 : Bool :=
    if validateableInput.required.getD false then
      isValid0 && !((jsTrim (jsValueToString validateableInput.value)).length == 0)
    else isValid0
  let isValid2 : Bool :=
    match validateableInput.minLength, validateableInput.value with
    | some m, JsValue.str s => isValid1 && decide ((s.length : Int) > m)
    | _, _ => isValid1
  let isValid3 : Bool :=
    match validateableInput.maxLength, validateableInput.value with
    | some m, JsValue.str s => isValid2 && decide ((s.length : Int) < m)
    | _, _ => isValid2
  let isValid4 : Bool :=
    match validateableInput.min, validateableInput.value with
    | some m, JsValue.num n => isValid3 && JsNum.jsGt n m
    | _, _ => isValid3
  let isValid5 : Bool :=
    match validateableInput.max, validateableInput.value with
    | some m, JsValue.num n => isValid4 && JsNum.jsLt n m
    | _, _ => isValid4
  isValid5

/-- The `Project` record (`class Project`): id, title, description, people
count, status.  A `Project` value is the state of one JS object. -/
structure Project where
  id : String
  title : String
  description : String
  people : JsNum
  status : ProjectStatus
deriving DecidableEq, Repr

/-- A reference to a `Project` object: an index into the heap.  Models JS
object identity — `Array.prototype.slice` copies an array of references,
not the objects behind them. -/
abbrev Ref := Nat

/-- Placeholder returned when dereferencing an out-of-range reference; the
store invariant keeps every live reference in range. -/
def defaultProject : Project :=
  { id := "", title := "", description := "", people := JsNum.num 0,
    status := ProjectStatus.Active }

/-- Read the `Project` object behind a reference. -/
def deref (heap : List Project) (r : Ref) : Project :=
  heap.getD r defaultProject

/-- A listener is identified by its registration token; its behaviour (the
list-view re-render) is modelled separately by `projectListAssigned`. -/
abbrev ListenerId := Nat

/-- One listener invocation: which listener was called and with which
snapshot (the copied array of project references it received). -/
abbrev Event := ListenerId × List Ref

/-- The `ProjectState` singleton: the heap of project objects, the
`projects` array (references, insertion order) and the registered
listeners in registration order. -/
structure ProjectState where
  heap : List Project
  projects : List Ref
  listeners : List ListenerId
deriving DecidableEq, Repr

/-- `updateListeners`: call every listener, in registration order, with
`this.projects.slice()` — a copy of the reference array. -/
def updateListeners (st : ProjectState) : List Event :=
  st.listeners.map (fun listenerFn => (listenerFn, st.projects))

/-- `addProject(title, description, numOfPeople)`: allocate a new `Project`
with the generated id (`Math.random().toString()` is nondeterministic, so
the generated string is passed in as `newId`), status `Active`, push it
onto `projects`, then notify the listeners. -/
def addProject (st : ProjectState) (newId : String) (title : String)
    (description : String) (numOfPeople : JsNum) : ProjectState × List Event :=
  let newProject : Project :=
    { id := newId, title := title, description := description,
      people := numOfPeople, status := ProjectStatus.Active }
  let st1 : ProjectState :=
    { st with heap := st.heap ++ [newProject],
              projects := st.projects ++ [st.heap.length] }
  (st1, updateListeners st1)

/-- `moveProject(projectId, newStatus)`: find the first project whose id
matches; if found and its status differs, mutate that object's status in
place (a heap update — the reference array is untouched) and notify;
otherwise do nothing. -/
def moveProject (st : ProjectState) (projectId : String)
    (newStatus : ProjectStatus) : ProjectState × List Event :=
  match st.projects.find? (fun prj => (deref st.heap prj).id == projectId) with
  | some prjRef =>
    let project := deref st.heap prjRef
    if project.status ≠ newStatus then
      let st1 : ProjectState :=
        { st with heap := st.heap.set prjRef { project with status := newStatus } }
      (st1, updateListeners st1)
    else (st, [])
  | none => (st, [])

/-- `addListener(listenerFn)`: append to the listener array. -/
def addListener (st : ProjectState) (listenerFn : ListenerId) : ProjectState :=
  { st with listeners := st.listeners ++ [listenerFn] }

/-- The listener registered by `ProjectList.configure`: filter the snapshot
to the view's own status (`type` is the `"active" | "finished"` string
literal field) and store it as `assignedProjects`. -/
def projectListAssigned (type : String) (heap : List Project)
    (snapshot : List Ref) : List Ref :=
  snapshot.filter (fun prj =>
    if type == "active" then (deref heap prj).status == ProjectStatus.Active
    else (deref heap prj).status == ProjectStatus.Finished)

/-- The `persons` getter of `ProjectItem`: "1 person" when `people === 1`,
otherwise the interpolated count followed by " persons". -/
def persons (project : Project) : String :=
  if JsNum.jsEq project.people (JsNum.num 1) then "1 person"
  else jsNumToString project.people ++ " persons"

/-- The text content a rendered `ProjectItem` puts into its `h2`, `h3` and
`p` elements. -/
structure RenderedItem where
  h2 : String
  h3 : String
  p : String
deriving DecidableEq, Repr

/-- `ProjectItem.renderContent`: h2 gets the title, h3 gets
`this.persons + " assigned"`, p gets the description. -/
def renderItem (project : Project) : RenderedItem :=
  { h2 := project.title, h3 := persons project ++ " assigned",
    p := project.description }

/-- `ProjectList.renderProjects`: clear the list element and recreate one
`ProjectItem` per assigned project, in order. -/
def renderProjects (heap : List Project) (assignedProjects : List Ref) :
    List RenderedItem :=
  assignedProjects.map (fun prjItem => renderItem (deref heap prjItem))

/-- The three raw input-element values of the `ProjectInput` form. -/
structure UserInputs where
  title : String
  description : String
  people : String
deriving DecidableEq, Repr

/-- The `titleValidatable` built by `gatherUserInput`. -/
def titleValidatable (enteredTitle : String) : Validatable :=
  { value := JsValue.str enteredTitle, required := some true }

/-- The `descriptionValidatable` built by `gatherUserInput`. -/
def descriptionValidatable (enteredDescription : String) : Validatable :=
  { value := JsValue.str enteredDescription, required := some true,
    minLength := some 5 }

/-- The `peopleValidatable` built by `gatherUserInput` from `+enteredPeople`. -/
def peopleValidatable (enteredPeople : JsNum) : Validatable :=
  { value := JsValue.num enteredPeople, required := some true,
    min := some (JsNum.num 1), max := some (JsNum.num 5) }

/-- `gatherUserInput`: validate the three fields; on failure alert and
return `undefined` (modelled as `none`), on success return the tuple.
The JS unary `+` coercion of the people field is abstracted as the
`toNumber` parameter. -/
def gatherUserInput (toNumber : String → JsNum) (inputs : UserInputs) :
    Option (String × String × JsNum) :=
  if !validate (titleValidatable inputs.title)
      || !validate (descriptionValidatable inputs.description)
      || !validate (peopleValidatable (toNumber inputs.people)) then
    none
  else
    some (inputs.title, inputs.description, toNumber inputs.people)

/-- `clearInputs`: set all three input values to the empty string. -/
def clearInputs (_inputs : UserInputs) : UserInputs :=
  { title := "", description := "", people := "" }

/-- Everything observable after one submit: the final field values, the
final store state, the listener invocations, and whether the alert fired. -/
structure SubmitResult where
  fields : UserInputs
  state : ProjectState
  events : List Event
  alerted : Bool
deriving DecidableEq, Repr

/-- `submitHandler`: gather (and validate) the input; if it returned a
tuple, call `addProject` and `clearInputs`; then — unconditionally, on the
line after the if-block — call `clearInputs` again. -/
def submitHandler (toNumber : String → JsNum) (newId : String)
    (inputs : UserInputs) (st : ProjectState) : SubmitResult :=
  match gatherUserInput toNumber inputs with
  | some (title, desc, people) =>
    let stEvents := addProject st newId title desc people
    { fields := clearInputs (clearInputs inputs), state := stEvents.1,
      events := stEvents.2, alerted := false }
  | none =>
    { fields := clearInputs inputs, state := st, events := [], alerted := true }

/-- The store state after the app's start-up wiring: no projects yet and the
two `ProjectList` listeners (active = 0, finished = 1) registered. -/
def demoEmptyState : ProjectState :=
  { heap := [], projects := [], listeners := [0, 1] }

/-- A concrete form state whose three fields all fail validation. -/
def demoFailingInputs : UserInputs :=
  { title := "ab", description := "x", people := "9" }

/-- Dereference every project in a delivered snapshot: what a listener
observes when it reads the projects behind the references it was handed. -/
def derefSnapshot (heap : List Project) (snapshot : List Ref) : List Project :=
  snapshot.map (deref heap)

/-- A store state holding one Active project "id-a", with the two list-view
listeners registered. -/
def demoSeededState : ProjectState :=
  { heap := [{ id := "id-a", title := "T", description := "D",
               people := JsNum.num 2, status := ProjectStatus.Active }],
    projects := [0], listeners := [0, 1] }

/-- The store after `addProject("Build API", "Design and build a REST API", 3)`
starting from the freshly wired app, `newId` being the generated id. -/
def demoAfterAdd (newId : String) : ProjectState :=
  (addProject demoEmptyState newId "Build API" "Design and build a REST API"
    (JsNum.num 3)).1

/-- The store after the subsequent `moveProject(<that id>, Finished)`. -/
def demoAfterMove (newId : String) : ProjectState :=
  (moveProject (demoAfterAdd newId) newId ProjectStatus.Finished).1

/-- The single project of the demo run, after its move to Finished. -/
def demoMovedProject (newId : String) : Project :=
  { id := newId, title := "Build API",
    description := "Design and build a REST API",
    people := JsNum.num 3, status := ProjectStatus.Finished }


/-! ### Helper lemmas -/

theorem isJsWhitespace_digitChar (d : Nat) : isJsWhitespace (digitChar d) = false := by
  have h : ∀ k < 10, isJsWhitespace (Char.ofNat (48 + k)) = false := by decide
  have hd : d % 10 < 10 := Nat.mod_lt _ (by omega)
  exact h (d % 10) hd

theorem natDigitsAux_not_whitespace (fuel : Nat) :
    ∀ n, ∀ c ∈ natDigitsAux fuel n, isJsWhitespace c = false := by
  induction fuel with
  | zero =>
    intro n c hc
    simp [natDigitsAux] at hc
  | succ fuel ih =>
    intro n c hc
    rw [natDigitsAux] at hc
    split at hc
    · rw [List.mem_singleton] at hc
      subst hc
      exact isJsWhitespace_digitChar n
    · rw [List.mem_append] at hc
      rcases hc with hc | hc
      · exact ih (n / 10) c hc
      · rw [List.mem_singleton] at hc
        subst hc
        exact isJsWhitespace_digitChar n

theorem natDigits_not_whitespace (n : Nat) :
    ∀ c ∈ natDigits n, isJsWhitespace c = false :=
  natDigitsAux_not_whitespace (n + 1) n

theorem natDigits_ne_nil (n : Nat) : natDigits n ≠ [] := by
  show natDigitsAux (n + 1) n ≠ []
  rw [natDigitsAux]
  split <;> simp

theorem dropWhile_eq_self_of_all_false {p : Char → Bool} (l : List Char)
    (h : ∀ c ∈ l, p c = false) : l.dropWhile p = l := by
  cases l with
  | nil => rfl
  | cons a t =>
    rw [List.dropWhile_cons, h a (List.mem_cons_self a t)]
    simp

theorem jsTrim_eq_self_of_no_whitespace (s : String)
    (h : ∀ c ∈ s.data, isJsWhitespace c = false) : jsTrim s = s := by
  obtain ⟨l⟩ := s
  show String.mk (((l.dropWhile isJsWhitespace).reverse.dropWhile isJsWhitespace).reverse) = String.mk l
  rw [dropWhile_eq_self_of_all_false l h]
  rw [dropWhile_eq_self_of_all_false l.reverse (by
    intro c hc
    exact h c (List.mem_reverse.mp hc))]
  rw [List.reverse_reverse]

theorem jsNumToString_trimmed_nonempty (j : JsNum) :
    (jsTrim (jsNumToString j)).length ≠ 0 := by
  cases j with
  | nan => decide
  | num n =>
    cases n with
    | ofNat m =>
      show (jsTrim (String.mk (natDigits m))).length ≠ 0
      rw [jsTrim_eq_self_of_no_whitespace (String.mk (natDigits m))
        (natDigits_not_whitespace m)]
      show (natDigits m).length ≠ 0
      rw [Ne, List.length_eq_zero]
      exact natDigits_ne_nil m
    | negSucc m =>
      show (jsTrim (String.mk ('-' :: natDigits (m + 1)))).length ≠ 0
      rw [jsTrim_eq_self_of_no_whitespace (String.mk ('-' :: natDigits (m + 1))) (by
        intro c hc
        rcases List.mem_cons.mp hc with hc | hc
        · subst hc; decide
        · exact natDigits_not_whitespace _ c hc)]
      show ('-' :: natDigits (m + 1)).length ≠ 0
      simp

theorem getD_set_eq' {α : Type} (l : List α) (i : Nat) (v d : α) (h : i < l.length) :
    (l.set i v).getD i d = v := by
  induction l generalizing i with
  | nil => simp at h
  | cons a t ih =>
    cases i with
    | zero => rfl
    | succ n =>
      rw [show (a :: t).set (n + 1) v = a :: t.set n v from rfl, List.getD_cons_succ]
      exact ih n (by simpa using h)

theorem getD_set_ne' {α : Type} (l : List α) (i j : Nat) (v d : α) (h : j ≠ i) :
    (l.set i v).getD j d = l.getD j d := by
  induction l generalizing i j with
  | nil => rfl
  | cons a t ih =>
    cases i with
    | zero =>
      cases j with
      | zero => exact absurd rfl h
      | succ m => rfl
    | succ n =>
      cases j with
      | zero => rfl
      | succ m =>
        rw [show (a :: t).set (n + 1) v = a :: t.set n v from rfl,
          List.getD_cons_succ, List.getD_cons_succ]
        exact ih n m (by omega)

theorem getD_append_left' {α : Type} (l l2 : List α) (i : Nat) (d : α)
    (h : i < l.length) : (l ++ l2).getD i d = l.getD i d := by
  induction l generalizing i with
  | nil => simp at h
  | cons a t ih =>
    cases i with
    | zero => rfl
    | succ n =>
      rw [List.cons_append, List.getD_cons_succ, List.getD_cons_succ]
      exact ih n (by simpa using h)

theorem getD_append_length' {α : Type} (l : List α) (v d : α) :
    (l ++ [v]).getD l.length d = v := by
  induction l with
  | nil => rfl
  | cons a t ih =>
    rw [List.cons_append, show (a :: t).length = t.length + 1 from rfl,
      List.getD_cons_succ]
    exact ih

theorem validate_true_iff (v : Validatable) :
    validate v = true ↔
      ((v.required.getD false = true →
          (jsTrim (jsValueToString v.value)).length ≠ 0) ∧
       (∀ s m, v.value = JsValue.str s → v.minLength = some m →
          (s.length : Int) > m) ∧
       (∀ s m, v.value = JsValue.str s → v.maxLength = some m →
          (s.length : Int) < m) ∧
       (∀ n m, v.value = JsValue.num n → v.min = some m →
          JsNum.jsGt n m = true) ∧
       (∀ n m, v.value = JsValue.num n → v.max = some m →
          JsNum.jsLt n m = true)) := by
  obtain ⟨val, req, minL, maxL, mi, ma⟩ := v
  rcases req with - | b
  on_goal 2 => cases b
  all_goals
    cases val <;> cases minL <;> cases maxL <;> cases mi <;> cases ma <;>
      simp [validate, and_assoc]


/-- C4: the people constraint built by `gatherUserInput`
(`{value: n, required: true, min: 1, max: 5}`) validates true exactly when
`1 < n < 5` (strict bounds); NaN is rejected, the integers 1 and 5 are
rejected, and only 2, 3, 4 of the intended 1–5 range are accepted. -/
theorem peopleValidatable_bounds (k : Int) :
    (validate (peopleValidatable (JsNum.num k)) = true ↔ 1 < k ∧ k < 5) ∧
    validate (peopleValidatable JsNum.nan) = false ∧
    validate (peopleValidatable (JsNum.num 1)) = false ∧
    validate (peopleValidatable (JsNum.num 5)) = false ∧
    validate (peopleValidatable (JsNum.num 2)) = true ∧
    validate (peopleValidatable (JsNum.num 3)) = true ∧
    validate (peopleValidatable (JsNum.num 4)) = true := by
  refine ⟨?_, by decide, by decide, by decide, by decide, by decide, by decide⟩
  have hreq := jsNumToString_trimmed_nonempty (JsNum.num k)
  simp [validate, peopleValidatable, JsNum.jsGt, JsNum.jsLt, jsValueToString, hreq]

/-- C10: `validate` applies each constraint only when the value's type
matches it — `minLength`/`maxLength` are skipped for number values,
`min`/`max` are skipped for string values — and the `required` constraint
is satisfied by every number value, whose string form is non-empty after
trimming. -/
theorem validate_type_matching :
    (∀ (v : Validatable) (n : JsNum), v.value = JsValue.num n →
        validate v = validate { v with minLength := none, maxLength := none }) ∧
    (∀ (v : Validatable) (s : String), v.value = JsValue.str s →
        validate v = validate { v with min := none, max := none }) ∧
    (∀ n : JsNum, validate { value := JsValue.num n, required := some true } = true) := by
  refine ⟨?_, ?_, ?_⟩
  · intro v n hv
    obtain ⟨val, req, minL, maxL, mi, ma⟩ := v
    cases hv
    cases minL <;> cases maxL <;> rfl
  · intro v s hv
    obtain ⟨val, req, minL, maxL, mi, ma⟩ := v
    cases hv
    cases mi <;> cases ma <;> rfl
  · intro n
    have hreq := jsNumToString_trimmed_nonempty n
    simp [validate, jsValueToString, hreq]

/-- C5: for a string value with a present `minLength` (resp. `maxLength`)
bound, `validate` returns true only if the length is strictly greater
(resp. strictly less) than the bound — equality is rejected; the two
concrete examples from the spec; and the full AND/skip characterisation of
`validate` (all present applicable constraints ANDed, absent ones skipped). -/
theorem validate_strict_string_bounds :
    (∀ (v : Validatable) (s : String) (m : Int), v.value = JsValue.str s →
        v.minLength = some m → validate v = true → (s.length : Int) > m) ∧
    (∀ (v : Validatable) (s : String) (m : Int), v.value = JsValue.str s →
        v.maxLength = some m → validate v = true → (s.length : Int) < m) ∧
    (∀ (v : Validatable) (s : String) (m : Int), v.value = JsValue.str s →
        v.minLength = some m → (s.length : Int) = m → validate v = false) ∧
    validate { value := JsValue.str "abc", required := some true, minLength := some 5 } = false ∧
    validate { value := JsValue.str "abcdef", minLength := some 5 } = true ∧
    (∀ v : Validatable, validate v = true ↔
      ((v.required.getD false = true →
          (jsTrim (jsValueToString v.value)).length ≠ 0) ∧
       (∀ s m, v.value = JsValue.str s → v.minLength = some m →
          (s.length : Int) > m) ∧
       (∀ s m, v.value = JsValue.str s → v.maxLength = some m →
          (s.length : Int) < m) ∧
       (∀ n m, v.value = JsValue.num n → v.min = some m →
          JsNum.jsGt n m = true) ∧
       (∀ n m, v.value = JsValue.num n → v.max = some m →
          JsNum.jsLt n m = true))) := by
  refine ⟨?_, ?_, ?_, by decide, by decide, validate_true_iff⟩
  · intro v s m hv hm hval
    exact ((validate_true_iff v).mp hval).2.1 s m hv hm
  · intro v s m hv hm hval
    exact ((validate_true_iff v).mp hval).2.2.1 s m hv hm
  · intro v s m hv hm heq
    have hval : validate v = true ∨ validate v = false := by
      cases validate v
      · exact Or.inr rfl
      · exact Or.inl rfl
    rcases hval with hval | hval
    · have := ((validate_true_iff v).mp hval).2.1 s m hv hm
      omega
    · exact hval

/-- Witness for C4: 3 is accepted. -/
theorem peopleValidatable_bounds_witness :
    validate (peopleValidatable (JsNum.num 3)) = true :=
  (peopleValidatable_bounds 3).1.mpr (by omega)

/-- Witness for C5: the accepted example is indeed strictly longer than 5. -/
theorem validate_strict_string_bounds_witness :
    (("abcdef".length : Int) > 5) :=
  validate_strict_string_bounds.1
    { value := JsValue.str "abcdef", minLength := some 5 } "abcdef" 5 rfl rfl (by decide)

/-- Witness for C10: a present `minLength` on a number value is skipped. -/
theorem validate_type_matching_witness :
    validate { value := JsValue.num (JsNum.num 7), minLength := some 3 }
      = validate { value := JsValue.num (JsNum.num 7) } :=
  validate_type_matching.1
    { value := JsValue.num (JsNum.num 7), minLength := some 3 } (JsNum.num 7) rfl


/-- C1: `addProject` appends exactly one new project reference to the end of
the collection; the new project carries the generated id, the given fields
and status `Active`; all previously stored projects are unchanged and (under
the collision-free id generator assumed by the spec) their ids differ from
the new id; and the emitted events call every registered listener exactly
once, in registration order, each receiving the current collection. -/
theorem addProject_spec (st : ProjectState) (newId title description : String)
    (numOfPeople : JsNum)
    (hwf : ∀ r ∈ st.projects, r < st.heap.length)
    (hfresh : ∀ r ∈ st.projects, (deref st.heap r).id ≠ newId) :
    (addProject st newId title description numOfPeople).1.projects
        = st.projects ++ [st.heap.length] ∧
    st.heap.length ∉ st.projects ∧
    deref (addProject st newId title description numOfPeople).1.heap st.heap.length
        = { id := newId, title := title, description := description,
            people := numOfPeople, status := ProjectStatus.Active } ∧
    (∀ r ∈ st.projects,
        deref (addProject st newId title description numOfPeople).1.heap r
          = deref st.heap r) ∧
    (∀ r ∈ st.projects,
        (deref (addProject st newId title description numOfPeople).1.heap r).id
          ≠ newId) ∧
    (addProject st newId title description numOfPeople).2
        = st.listeners.map (fun listenerFn =>
            (listenerFn, (addProject st newId title description numOfPeople).1.projects)) ∧
    (addProject st newId title description numOfPeople).1.listeners = st.listeners := by
  have hpres : ∀ r ∈ st.projects,
      deref (addProject st newId title description numOfPeople).1.heap r
        = deref st.heap r := by
    intro r hr
    exact getD_append_left' st.heap _ r defaultProject (hwf r hr)
  refine ⟨rfl, ?_, ?_, hpres, ?_, rfl, rfl⟩
  · intro hmem
    exact absurd (hwf _ hmem) (lt_irrefl _)
  · exact getD_append_length' st.heap _ defaultProject
  · intro r hr
    rw [hpres r hr]
    exact hfresh r hr

/-- C2: `moveProject` with an id matching no project, or whose first match
already has the requested status, returns the state unchanged and emits no
listener events. -/
theorem moveProject_noop (st : ProjectState) (projectId : String)
    (newStatus : ProjectStatus)
    (h : (∀ r ∈ st.projects, (deref st.heap r).id ≠ projectId) ∨
         (∀ r, st.projects.find? (fun prj => (deref st.heap prj).id == projectId)
              = some r → (deref st.heap r).status = newStatus)) :
    moveProject st projectId newStatus = (st, []) := by
  rcases hf : st.projects.find? (fun prj => (deref st.heap prj).id == projectId)
    with - | r
  · simp [moveProject, hf]
  · rcases h with h | h
    · have hp := List.find?_some hf
      have hm := List.mem_of_find?_eq_some hf
      exact absurd (eq_of_beq hp) (h r hm)
    · simp [moveProject, hf, h r hf]

/-- C6: a successful `moveProject` changes only the matched project's
status field — its id, title, description and people are untouched, every
other heap object is untouched, and the collection (hence its length and
insertion order) and listener list are unchanged. -/
theorem moveProject_frame (st : ProjectState) (projectId : String)
    (newStatus : ProjectStatus) (prjRef : Ref)
    (hwf : ∀ r ∈ st.projects, r < st.heap.length)
    (hfind : st.projects.find? (fun prj => (deref st.heap prj).id == projectId)
        = some prjRef)
    (hdiff : (deref st.heap prjRef).status ≠ newStatus) :
    (moveProject st projectId newStatus).1.projects = st.projects ∧
    (moveProject st projectId newStatus).1.projects.length = st.projects.length ∧
    (moveProject st projectId newStatus).1.listeners = st.listeners ∧
    deref (moveProject st projectId newStatus).1.heap prjRef
        = { deref st.heap prjRef with status := newStatus } ∧
    (deref (moveProject st projectId newStatus).1.heap prjRef).id
        = (deref st.heap prjRef).id ∧
    (deref (moveProject st projectId newStatus).1.heap prjRef).title
        = (deref st.heap prjRef).title ∧
    (deref (moveProject st projectId newStatus).1.heap prjRef).description
        = (deref st.heap prjRef).description ∧
    (deref (moveProject st projectId newStatus).1.heap prjRef).people
        = (deref st.heap prjRef).people ∧
    (deref (moveProject st projectId newStatus).1.heap prjRef).status = newStatus ∧
    (∀ x : Ref, x ≠ prjRef →
        deref (moveProject st projectId newStatus).1.heap x = deref st.heap x) ∧
    (moveProject st projectId newStatus).2
        = st.listeners.map (fun listenerFn => (listenerFn, st.projects)) := by
  have hlt : prjRef < st.heap.length := hwf _ (List.mem_of_find?_eq_some hfind)
  have hmove : moveProject st projectId newStatus
      = ({ st with
            heap := st.heap.set prjRef
              ({ deref st.heap prjRef with status := newStatus }) },
         st.listeners.map (fun listenerFn => (listenerFn, st.projects))) := by
    simp [moveProject, hfind, hdiff, updateListeners]
  have hnew : deref (st.heap.set prjRef
        ({ deref st.heap prjRef with status := newStatus })) prjRef
      = { deref st.heap prjRef with status := newStatus } :=
    getD_set_eq' st.heap prjRef _ defaultProject hlt
  rw [hmove]
  refine ⟨rfl, rfl, rfl, hnew, ?_, ?_, ?_, ?_, ?_, ?_, rfl⟩
  · rw [hnew]
  · rw [hnew]
  · rw [hnew]
  · rw [hnew]
  · rw [hnew]
  · intro x hx
    exact getD_set_ne' st.heap prjRef x _ defaultProject hx


/-- C7: after a notification with snapshot `S`, the list view of status `t`
holds as its assigned set exactly the projects of `S` with status `t`, in
the order of `S` (a sublist), with no duplicates and no omissions. -/
theorem projectListAssigned_filter (type : String) (t : ProjectStatus)
    (heap : List Project) (snapshot : List Ref)
    (htype : (type = "active" ∧ t = ProjectStatus.Active) ∨
             (type = "finished" ∧ t = ProjectStatus.Finished)) :
    (∀ r : Ref, r ∈ projectListAssigned type heap snapshot ↔
        r ∈ snapshot ∧ (deref heap r).status = t) ∧
    (projectListAssigned type heap snapshot).Sublist snapshot ∧
    (snapshot.Nodup → (projectListAssigned type heap snapshot).Nodup) := by
  refine ⟨?_, List.filter_sublist snapshot, fun h => List.Nodup.filter _ h⟩
  intro r
  rcases htype with ⟨hty, ht⟩ | ⟨hty, ht⟩ <;> subst hty <;> subst ht <;>
    simp [projectListAssigned, List.mem_filter]

/-- C8 counterexample: `slice()` copies only the array, not the projects —
after `addProject` delivers a snapshot, a later `moveProject` changes the
status of the project *inside that previously delivered snapshot*, refuting
the claim that delivered snapshots (including the projects they contain)
are immune to subsequent store mutations. -/
theorem snapshot_shallow_copy_cex :
    derefSnapshot
        (moveProject (addProject demoEmptyState "id0" "A" "d" (JsNum.num 3)).1
          "id0" ProjectStatus.Finished).1.heap
        (((addProject demoEmptyState "id0" "A" "d" (JsNum.num 3)).2.headD (0, [])).2)
      ≠
    derefSnapshot (addProject demoEmptyState "id0" "A" "d" (JsNum.num 3)).1.heap
        (((addProject demoEmptyState "id0" "A" "d" (JsNum.num 3)).2.headD (0, [])).2) := by
  decide

/-- C8 amended: the array handed to listeners is a shallow copy — a later
`addProject` leaves everything seen through an earlier snapshot unchanged,
while a later successful `moveProject` is visible through earlier snapshots
exactly at the moved project, and there only in its status field. -/
theorem snapshot_shallow_copy_amended (st : ProjectState) (snap : List Ref)
    (hsnap : ∀ x ∈ snap, x < st.heap.length)
    (newId title description : String) (numOfPeople : JsNum)
    (projectId : String) (newStatus : ProjectStatus) (prjRef : Ref)
    (hwf : ∀ r ∈ st.projects, r < st.heap.length)
    (hfind : st.projects.find? (fun prj => (deref st.heap prj).id == projectId)
        = some prjRef)
    (hdiff : (deref st.heap prjRef).status ≠ newStatus) :
    derefSnapshot (addProject st newId title description numOfPeople).1.heap snap
        = derefSnapshot st.heap snap ∧
    derefSnapshot (moveProject st projectId newStatus).1.heap snap
        = snap.map (fun x => if x = prjRef
            then { deref st.heap x with status := newStatus }
            else deref st.heap x) := by
  constructor
  · apply List.map_congr_left
    intro x hx
    exact getD_append_left' st.heap _ x defaultProject (hsnap x hx)
  · have hlt : prjRef < st.heap.length := hwf _ (List.mem_of_find?_eq_some hfind)
    have hmove : (moveProject st projectId newStatus).1.heap
        = st.heap.set prjRef ({ deref st.heap prjRef with status := newStatus }) := by
      simp [moveProject, hfind, hdiff]
    rw [show derefSnapshot (moveProject st projectId newStatus).1.heap snap
        = snap.map (deref (moveProject st projectId newStatus).1.heap) from rfl]
    rw [hmove]
    apply List.map_congr_left
    intro x hx
    by_cases hcase : x = prjRef
    · subst hcase
      rw [if_pos rfl]
      exact getD_set_eq' st.heap x _ defaultProject hlt
    · rw [if_neg hcase]
      exact getD_set_ne' st.heap prjRef x _ defaultProject hcase

/-- C3 amended: on a submit whose validation fails, the alert fires,
`addProject` is not called (store unchanged, no listener events), but the
three input fields are cleared — `clearInputs()` runs unconditionally after
the if-block — rather than keeping their entered values. -/
theorem submitHandler_failure_amended (toNumber : String → JsNum) (newId : String)
    (inputs : UserInputs) (st : ProjectState)
    (hfail : gatherUserInput toNumber inputs = none) :
    (submitHandler toNumber newId inputs st).alerted = true ∧
    (submitHandler toNumber newId inputs st).state = st ∧
    (submitHandler toNumber newId inputs st).events = [] ∧
    (submitHandler toNumber newId inputs st).fields = clearInputs inputs := by
  simp [submitHandler, hfail]

/-- C3 counterexample: a concrete failing submit (description too short,
people out of bounds) after which the fields do NOT keep their entered
values — they are cleared — refuting the claim as stated. -/
theorem submitHandler_failure_cex :
    gatherUserInput (fun _ => JsNum.num 9) demoFailingInputs = none ∧
    (submitHandler (fun _ => JsNum.num 9) "id-c" demoFailingInputs
        demoEmptyState).alerted = true ∧
    (submitHandler (fun _ => JsNum.num 9) "id-c" demoFailingInputs
        demoEmptyState).state = demoEmptyState ∧
    (submitHandler (fun _ => JsNum.num 9) "id-c" demoFailingInputs
        demoEmptyState).fields ≠ demoFailingInputs := by
  decide


/-- C9: after `addProject("Build API", "Design and build a REST API", 3)`
and `moveProject(<that id>, Finished)`, the finished view renders exactly
one item titled "Build API" with subtitle "3 persons assigned" and the
active view is empty; pluralization is "1 person" for a people count of 1
and "N persons" otherwise. -/
theorem demo_flow (newId : String) :
    renderProjects (demoAfterMove newId).heap
        (projectListAssigned "finished" (demoAfterMove newId).heap
          (demoAfterMove newId).projects)
      = [{ h2 := "Build API", h3 := "3 persons assigned",
           p := "Design and build a REST API" }] ∧
    projectListAssigned "active" (demoAfterMove newId).heap
        (demoAfterMove newId).projects = [] ∧
    (∀ project : Project, project.people = JsNum.num 1 →
        persons project = "1 person") ∧
    (∀ project : Project, project.people ≠ JsNum.num 1 →
        persons project = jsNumToString project.people ++ " persons") := by
  have hmove : demoAfterMove newId
      = { heap := [demoMovedProject newId],
          projects := [0], listeners := [0, 1] } := by
    simp [demoAfterMove, demoAfterAdd, addProject, moveProject, demoEmptyState,
      deref, updateListeners, List.find?, demoMovedProject]
  have hpersons3 : persons (demoMovedProject newId) = "3 persons" := by
    show (if (JsNum.jsEq (JsNum.num 3) (JsNum.num 1)) = true then "1 person"
        else jsNumToString (JsNum.num 3) ++ " persons") = "3 persons"
    decide
  have hstatus : (demoMovedProject newId).status = ProjectStatus.Finished := rfl
  have htitle : (demoMovedProject newId).title = "Build API" := rfl
  have hdesc : (demoMovedProject newId).description
      = "Design and build a REST API" := rfl
  have happend : "3 persons" ++ " assigned" = "3 persons assigned" := rfl
  refine ⟨?_, ?_, ?_, ?_⟩
  · rw [hmove]
    simp [renderProjects, projectListAssigned, deref, renderItem, hpersons3,
      hstatus, htitle, hdesc, happend]
  · rw [hmove]
    simp [projectListAssigned, deref, hstatus]
  · intro project hp
    rw [persons, hp]
    simp [JsNum.jsEq]
  · intro project hp
    cases hpeople : project.people with
    | num n =>
      have hn1 : n ≠ 1 := fun h1 => hp (by rw [hpeople, h1])
      have hn : (JsNum.num n).jsEq (JsNum.num 1) = false := by
        simp [JsNum.jsEq, hn1]
      rw [persons, hpeople, hn]
      simp
    | nan =>
      rw [persons, hpeople]
      simp [JsNum.jsEq]


/-- Witness for C1 at a concrete seeded store. -/
theorem addProject_spec_witness :
    (addProject demoSeededState "id-b" "T2" "D2" (JsNum.num 3)).1.projects
        = demoSeededState.projects ++ [demoSeededState.heap.length] ∧
    demoSeededState.heap.length ∉ demoSeededState.projects ∧
    deref (addProject demoSeededState "id-b" "T2" "D2" (JsNum.num 3)).1.heap
        demoSeededState.heap.length
        = { id := "id-b", title := "T2", description := "D2",
            people := JsNum.num 3, status := ProjectStatus.Active } ∧
    (∀ r ∈ demoSeededState.projects,
        deref (addProject demoSeededState "id-b" "T2" "D2" (JsNum.num 3)).1.heap r
          = deref demoSeededState.heap r) ∧
    (∀ r ∈ demoSeededState.projects,
        (deref (addProject demoSeededState "id-b" "T2" "D2"
            (JsNum.num 3)).1.heap r).id ≠ "id-b") ∧
    (addProject demoSeededState "id-b" "T2" "D2" (JsNum.num 3)).2
        = demoSeededState.listeners.map (fun listenerFn =>
            (listenerFn,
              (addProject demoSeededState "id-b" "T2" "D2"
                (JsNum.num 3)).1.projects)) ∧
    (addProject demoSeededState "id-b" "T2" "D2" (JsNum.num 3)).1.listeners
        = demoSeededState.listeners :=
  addProject_spec demoSeededState "id-b" "T2" "D2" (JsNum.num 3)
    (by decide) (by decide)

/-- Witness for C2: an id matching no project. -/
theorem moveProject_noop_witness :
    moveProject demoSeededState "missing-id" ProjectStatus.Finished
      = (demoSeededState, []) :=
  moveProject_noop demoSeededState "missing-id" ProjectStatus.Finished
    (Or.inl (by decide))

/-- Witness for C6 at a concrete seeded store. -/
theorem moveProject_frame_witness :
    (moveProject demoSeededState "id-a" ProjectStatus.Finished).1.projects
        = demoSeededState.projects ∧
    (moveProject demoSeededState "id-a" ProjectStatus.Finished).1.projects.length
        = demoSeededState.projects.length ∧
    (moveProject demoSeededState "id-a" ProjectStatus.Finished).1.listeners
        = demoSeededState.listeners ∧
    deref (moveProject demoSeededState "id-a" ProjectStatus.Finished).1.heap 0
        = { deref demoSeededState.heap 0 with status := ProjectStatus.Finished } ∧
    (deref (moveProject demoSeededState "id-a" ProjectStatus.Finished).1.heap 0).id
        = (deref demoSeededState.heap 0).id ∧
    (deref (moveProject demoSeededState "id-a" ProjectStatus.Finished).1.heap 0).title
        = (deref demoSeededState.heap 0).title ∧
    (deref (moveProject demoSeededState "id-a"
        ProjectStatus.Finished).1.heap 0).description
        = (deref demoSeededState.heap 0).description ∧
    (deref (moveProject demoSeededState "id-a"
        ProjectStatus.Finished).1.heap 0).people
        = (deref demoSeededState.heap 0).people ∧
    (deref (moveProject demoSeededState "id-a"
        ProjectStatus.Finished).1.heap 0).status = ProjectStatus.Finished ∧
    (∀ x : Ref, x ≠ 0 →
        deref (moveProject demoSeededState "id-a"
            ProjectStatus.Finished).1.heap x
          = deref demoSeededState.heap x) ∧
    (moveProject demoSeededState "id-a" ProjectStatus.Finished).2
        = demoSeededState.listeners.map (fun listenerFn =>
            (listenerFn, demoSeededState.projects)) :=
  moveProject_frame demoSeededState "id-a" ProjectStatus.Finished 0
    (by decide) (by decide) (by decide)

/-- Witness for C7: the finished view over a concrete snapshot. -/
theorem projectListAssigned_filter_witness :
    (∀ r : Ref, r ∈ projectListAssigned "finished" demoSeededState.heap [0] ↔
        r ∈ ([0] : List Ref) ∧
          (deref demoSeededState.heap r).status = ProjectStatus.Finished) ∧
    (projectListAssigned "finished" demoSeededState.heap [0]).Sublist
        ([0] : List Ref) ∧
    (([0] : List Ref).Nodup →
        (projectListAssigned "finished" demoSeededState.heap [0]).Nodup) :=
  projectListAssigned_filter "finished" ProjectStatus.Finished
    demoSeededState.heap [0] (Or.inr ⟨rfl, rfl⟩)

/-- Witness for the amended C8 at a concrete store and snapshot. -/
theorem snapshot_shallow_copy_amended_witness :
    derefSnapshot
        (addProject demoSeededState "id-b" "T2" "D2" (JsNum.num 3)).1.heap [0]
        = derefSnapshot demoSeededState.heap [0] ∧
    derefSnapshot
        (moveProject demoSeededState "id-a" ProjectStatus.Finished).1.heap [0]
        = ([0] : List Ref).map (fun x => if x = 0
            then { deref demoSeededState.heap x with
                     status := ProjectStatus.Finished }
            else deref demoSeededState.heap x) :=
  snapshot_shallow_copy_amended demoSeededState [0] (by decide)
    "id-b" "T2" "D2" (JsNum.num 3) "id-a" ProjectStatus.Finished 0
    (by decide) (by decide) (by decide)

/-- Witness for the amended C3 at a concrete failing submit. -/
theorem submitHandler_failure_amended_witness :
    (submitHandler (fun _ => JsNum.num 2) "id-d" demoFailingInputs
        demoEmptyState).alerted = true ∧
    (submitHandler (fun _ => JsNum.num 2) "id-d" demoFailingInputs
        demoEmptyState).state = demoEmptyState ∧
    (submitHandler (fun _ => JsNum.num 2) "id-d" demoFailingInputs
        demoEmptyState).events = [] ∧
    (submitHandler (fun _ => JsNum.num 2) "id-d" demoFailingInputs
        demoEmptyState).fields = clearInputs demoFailingInputs :=
  submitHandler_failure_amended (fun _ => JsNum.num 2) "id-d" demoFailingInputs
    demoEmptyState (by decide)

/-- Witness for C9: the pluralization clause at a concrete project. -/
theorem demo_flow_witness :
    persons { id := "0.42", title := "X", description := "Y",
              people := JsNum.num 1, status := ProjectStatus.Active }
      = "1 person" :=
  (demo_flow "0.42").2.2.1
    { id := "0.42", title := "X", description := "Y",
      people := JsNum.num 1, status := ProjectStatus.Active } rfl

end DragDrop





